import Mathlib

/-!
Verification of the NetLogo world-file parser (`src/lib.rs`, `src/value.rs`)
against its natural-language specification.

The Rust code is shallowly embedded: pure functions become Lean functions,
the streaming parse loop becomes explicit state passing over a list of rows,
machine integers become `Nat`/`Int` with the parse functions enforcing the
64-bit ranges, and fallible operations return `Except`/`Option`.

External dependency modelling, faithful to the crates the code calls:
* the csv crate reader: flexible rows, RFC4180-style quoting, blank lines
  skipped, and the default `has_headers = true` (so the first record of the
  input is consumed as the csv-level header and never reaches the loop);
* `StringRecord::deserialize`: headers are paired with fields in order, a
  field past the end of the row is an "unexpected end of row" error, extra
  fields beyond the header are ignored, and enum deserialization reads the
  first field only;
* the csv type inference used for untagged values: try `true`/`false`, then
  `u64`, then `i64`, then `f64`, else keep the raw string;
* Rust `u64::from_str` / `i64::from_str` / `f64::from_str` grammars.
  IEEE-754 doubles are represented by the exact rational value of the
  numeral (rounding to the nearest double is abstracted away; the claims
  checked here never depend on rounding), with separate markers for the
  `inf`/`nan` literals the Rust grammar accepts.
-/

/-- The double-quote character, named once to keep its uses readable. -/
def dquote : Char := '"'

/-- Numeric value of a list of ASCII digits, most significant first. -/
def digitsVal (l : List Char) : Nat :=
  l.foldl (fun a c => a * 10 + (c.toNat - 48)) 0

/-- Model of Rust `u64::from_str`: optional leading `+`, one or more ASCII
digits, value below 2^64; nothing else is accepted. -/
def parseU64 (s : String) : Option Nat :=
  let l := match s.data with
    | '+' :: t => t
    | t => t
  if l.isEmpty then none
  else if l.all Char.isDigit then
    let n := digitsVal l
    if n < 18446744073709551616 then some n else none
  else none

/-- Model of Rust `i64::from_str`: optional sign, one or more ASCII digits,
value within the signed 64-bit range. -/
def parseI64 (s : String) : Option Int :=
  match s.data with
  | '+' :: t => parseI64Body false t
  | '-' :: t => parseI64Body true t
  | t => parseI64Body false t
where
  /-- Digits part of the signed-integer grammar, given the sign. -/
  parseI64Body (neg : Bool) (l : List Char) : Option Int :=
    if l.isEmpty then none
    else if l.all Char.isDigit then
      let n := digitsVal l
      if neg then
        if n ≤ 9223372036854775808 then some (-(n : Int)) else none
      else
        if n ≤ 9223372036854775807 then some (n : Int) else none
    else none

/-- Abstraction of an IEEE-754 double produced by `f64::from_str`: a finite
numeral is kept as its exact decimal value `mantissa * 10 ^ exp10` (rounding
to the nearest double is abstracted away; no claim checked here depends on
it), and the `inf`/`nan` literals the Rust grammar accepts are tagged. -/
inductive FloatLit where
  | finite (mantissa : Int) (exp10 : Int)
  | inf (neg : Bool)
  | nan
deriving DecidableEq, Repr

/-- Split a character list at the first `e`/`E`, if any. -/
def findExpChar : List Char → Option (List Char × List Char)
  | [] => none
  | c :: rest =>
    if c == 'e' || c == 'E' then some ([], rest)
    else match findExpChar rest with
      | some (a, b) => some (c :: a, b)
      | none => none

/-- Split a character list at the first `.`, if any. -/
def findDot : List Char → Option (List Char × List Char)
  | [] => none
  | c :: rest =>
    if c == '.' then some ([], rest)
    else match findDot rest with
      | some (a, b) => some (c :: a, b)
      | none => none

/-- Mantissa of the Rust float grammar: digits, optionally with one dot,
at least one digit in total.  Returns the digits' value together with the
number of fractional digits (so the mantissa denotes `fst * 10 ^ (-snd)`). -/
def parseMantissa (l : List Char) : Option (Nat × Nat) :=
  let (ip, fp) := match findDot l with
    | none => (l, [])
    | some (a, b) => (a, b)
  if (ip ++ fp).isEmpty then none
  else if ip.all Char.isDigit && fp.all Char.isDigit then
    some (digitsVal (ip ++ fp), fp.length)
  else none

/-- Exponent part of the Rust float grammar (after the `e`/`E`):
optional sign then one or more digits. -/
def parseExpPart (l : List Char) : Option Int :=
  match l with
  | '+' :: t => parseExpDigits false t
  | '-' :: t => parseExpDigits true t
  | t => parseExpDigits false t
where
  /-- Digits of the exponent, given its sign. -/
  parseExpDigits (neg : Bool) (d : List Char) : Option Int :=
    if d.isEmpty then none
    else if d.all Char.isDigit then
      some (if neg then -(digitsVal d : Int) else (digitsVal d : Int))
    else none

/-- Model of Rust `f64::from_str`: optional sign, then `inf`/`infinity`/`nan`
(ASCII case-insensitive) or a decimal mantissa with optional exponent. -/
def parseF64 (s : String) : Option FloatLit :=
  match s.data with
  | '+' :: t => parseF64Body false t
  | '-' :: t => parseF64Body true t
  | t => parseF64Body false t
where
  /-- Body of the float grammar after the optional sign. -/
  parseF64Body (neg : Bool) (l : List Char) : Option FloatLit :=
    let low := l.map Char.toLower
    if low = ['i', 'n', 'f'] || low = ['i', 'n', 'f', 'i', 'n', 'i', 't', 'y'] then
      some (.inf neg)
    else if low = ['n', 'a', 'n'] then some .nan
    else match findExpChar l with
      | none =>
        (parseMantissa l).map fun p =>
          .finite (if neg then -(p.1 : Int) else (p.1 : Int)) (-(p.2 : Int))
      | some (m, e) =>
        match parseMantissa m, parseExpPart e with
        | some p, some ex =>
          some (.finite (if neg then -(p.1 : Int) else (p.1 : Int)) (ex - (p.2 : Int)))
        | _, _ => none

/-- Type `Value` from `src/value.rs`: the scalar tagged union for custom fields.
Variant names follow the Rust enum; the `Float` payload is the `FloatLit`
abstraction of an `f64`. -/
inductive Value where
  | bool (b : Bool)
  | u64 (n : Nat)
  | i64 (n : Int)
  | float (f : FloatLit)
  | string (s : String)
deriving DecidableEq, Repr

/-- Coercion of one cell string into a `Value`: the csv crate's type
inference (`infer_deserialize`) composed with the untagged `Value`
selection.  Tries, in order: the literals `true`/`false`, `u64`, `i64`,
`f64`, and finally keeps the raw string. -/
def coerceValue (s : String) : Value :=
  if s = "true" then .bool true
  else if s = "false" then .bool false
  else match parseU64 s with
  | some n => .u64 n
  | none => match parseI64 s with
    | some n => .i64 n
    | none => match parseF64 s with
      | some f => .float f
      | none => .string s

/-- Model of Rust `std::collections::HashMap<String, Value>` by its
extensional content: a key-sorted association list, the canonical
representative of the finite map.  Rust's `HashMap` iteration order is
unspecified (randomized per instance) and its equality is order-independent,
which this canonical representation mirrors: no insertion order is
observable. -/
abbrev CustomMap := List (String × Value)

/-- Lexicographic order on character lists by code point; the total order
fixing the canonical (sorted) representation of the `HashMap` model. -/
def charListLt : List Char → List Char → Bool
  | [], [] => false
  | [], _ :: _ => true
  | _ :: _, [] => false
  | a :: as, b :: bs =>
    if a.toNat < b.toNat then true
    else if b.toNat < a.toNat then false
    else charListLt as bs

/-- Operation `HashMap::insert`, on the canonical sorted representation: replaces the
value at an existing key, otherwise inserts at the key's sorted position. -/
def hmInsert (k : String) (v : Value) : CustomMap → CustomMap
  | [] => [(k, v)]
  | (k2, v2) :: rest =>
    if k = k2 then (k, v) :: rest
    else if charListLt k.data k2.data then (k, v) :: (k2, v2) :: rest
    else (k2, v2) :: hmInsert k v rest

/-- Build the `HashMap` model from bindings in encounter order (later
bindings with the same key overwrite, as serde's map collection does). -/
def hmOfPairs (ps : List (String × Value)) : CustomMap :=
  ps.foldl (fun m p => hmInsert p.1 p.2 m) []

/-- Struct `Globals` from `src/lib.rs`: four signed coordinates, an unsigned tick
counter, and the flattened `custom` map for every other column. -/
structure Globals where
  min_pxcor : Int
  max_pxcor : Int
  min_pycor : Int
  max_pycor : Int
  ticks : Nat
  custom : CustomMap
deriving DecidableEq, Repr

/-- Value of `Globals::default()`: all numeric fields zero, empty custom map. -/
def defaultGlobals : Globals := ⟨0, 0, 0, 0, 0, []⟩

/-- Struct `Turle` (sic) from `src/lib.rs`: fixed fields plus the custom map. -/
structure Turle where
  who : Nat
  color : Nat
  xcor : Int
  ycor : Int
  custom : CustomMap
deriving DecidableEq, Repr

/-- Struct `Patch` from `src/lib.rs`: no fixed fields, only the custom map. -/
structure Patch where
  custom : CustomMap
deriving DecidableEq, Repr

/-- Struct `Link` from `src/lib.rs`: declared like `Patch`, but never used by the
parser — `NetLogoWorld.links` is a `Vec<String>`, not a `Vec<Link>`. -/
structure Link where
  custom : CustomMap
deriving DecidableEq, Repr

/-- Struct `NetLogoWorld` from `src/lib.rs`.  Note the field types taken verbatim
from the source: `links` is a list of raw strings (not of `Link` records)
and `plots` is the unit placeholder. -/
structure NetLogoWorld where
  random_state : List Int
  globals : Globals
  output : List String
  turtles : List Turle
  patches : List Patch
  links : List String
  plots : Unit
deriving DecidableEq, Repr

/-- Value of `NetLogoWorld::default()`. -/
def defaultWorld : NetLogoWorld := ⟨[], defaultGlobals, [], [], [], [], ()⟩

/-- The `Section` enum from `src/lib.rs` (including the `Extenstions`
spelling taken verbatim from the source). -/
inductive Section where
  | header
  | randomState
  | globals
  | turtles
  | patches
  | links
  | output
  | plots
  | extenstions
deriving DecidableEq, Repr

/-- The serde wire name of each section under `SCREAMING_SNAKE_CASE`
renaming; the inverse lookup used when classifying a row. -/
def sectionOfToken (s : String) : Option Section :=
  if s = "HEADER" then some .header
  else if s = "RANDOM_STATE" then some .randomState
  else if s = "GLOBALS" then some .globals
  else if s = "TURTLES" then some .turtles
  else if s = "PATCHES" then some .patches
  else if s = "LINKS" then some .links
  else if s = "OUTPUT" then some .output
  else if s = "PLOTS" then some .plots
  else if s = "EXTENSTIONS" then some .extenstions
  else none

/-- Model of `record.deserialize::<Section>(None)`: enum deserialization through the
csv crate reads the first field of the record and matches it against the
variant wire names; any remaining fields are ignored, and an empty record
fails (`unexpected end of row`), which the caller treats as a miss. -/
def classifySection (row : List String) : Option Section :=
  match row with
  | [] => none
  | c :: _ => sectionOfToken c

/-- Predicate `Section::has_headers` from `src/lib.rs`. -/
def Section.hasHeaders : Section → Bool
  | .header | .output | .plots | .extenstions => false
  | _ => true

/-- csv header/field pairing used by `StringRecord::deserialize` for
map-style targets: each header name is paired with the next field; a header
with no remaining field is an `unexpected end of row` error, while fields
beyond the last header are ignored. -/
def pairFields (hdr row : List String) : Except String (List (String × String)) :=
  if row.length < hdr.length then .error "unexpected end of row"
  else .ok (hdr.zip row)

/-- Typed deserialization of one `i64` cell (csv `deserialize_i64`). -/
def cellI64 (name v : String) : Except String Int :=
  match parseI64 v with
  | some n => .ok n
  | none => .error ("invalid i64 value for field " ++ name)

/-- Typed deserialization of one `u64`/`usize` cell (csv `deserialize_u64`). -/
def cellU64 (name v : String) : Except String Nat :=
  match parseU64 v with
  | some n => .ok n
  | none => .error ("invalid u64 value for field " ++ name)

/-- Finalization of a fixed field after all map entries were consumed:
serde errors with `missing field` when the field was never seen. -/
def requireField {α : Type} (name : String) : Option α → Except String α
  | some a => .ok a
  | none => .error ("missing field " ++ name)

/-- Loop of the serde-derived `Globals` deserialization over the
header/field pairs: known (kebab-case) field names are parsed at their
declared integer types, with duplicate detection, and every other column is
buffered for the flattened `custom` map coerced through `coerceValue`. -/
def bindGlobalsAux :
    List (String × String) → Option Int → Option Int → Option Int → Option Int →
    Option Nat → List (String × Value) → Except String Globals
  | [], a, b, c, d, t, cust => do
    let a ← requireField "min-pxcor" a
    let b ← requireField "max-pxcor" b
    let c ← requireField "min-pycor" c
    let d ← requireField "max-pycor" d
    let t ← requireField "ticks" t
    .ok ⟨a, b, c, d, t, hmOfPairs cust.reverse⟩
  | (k, v) :: rest, a, b, c, d, t, cust =>
    if k = "min-pxcor" then
      if a.isSome then .error "duplicate field min-pxcor"
      else do bindGlobalsAux rest (some (← cellI64 k v)) b c d t cust
    else if k = "max-pxcor" then
      if b.isSome then .error "duplicate field max-pxcor"
      else do bindGlobalsAux rest a (some (← cellI64 k v)) c d t cust
    else if k = "min-pycor" then
      if c.isSome then .error "duplicate field min-pycor"
      else do bindGlobalsAux rest a b (some (← cellI64 k v)) d t cust
    else if k = "max-pycor" then
      if d.isSome then .error "duplicate field max-pycor"
      else do bindGlobalsAux rest a b c (some (← cellI64 k v)) t cust
    else if k = "ticks" then
      if t.isSome then .error "duplicate field ticks"
      else do bindGlobalsAux rest a b c d (some (← cellU64 k v)) cust
    else bindGlobalsAux rest a b c d t ((k, coerceValue v) :: cust)

/-- Model of `record.deserialize::<Globals>(headers)`: pair headers with fields, then
run the serde-derived binding. -/
def bindGlobals (hdr row : List String) : Except String Globals :=
  match pairFields hdr row with
  | .error e => .error e
  | .ok pairs => bindGlobalsAux pairs none none none none none []

/-- Loop of the serde-derived `Turle` deserialization, as for `Globals`. -/
def bindTurtleAux :
    List (String × String) → Option Nat → Option Nat → Option Int → Option Int →
    List (String × Value) → Except String Turle
  | [], w, c, x, y, cust => do
    let w ← requireField "who" w
    let c ← requireField "color" c
    let x ← requireField "xcor" x
    let y ← requireField "ycor" y
    .ok ⟨w, c, x, y, hmOfPairs cust.reverse⟩
  | (k, v) :: rest, w, c, x, y, cust =>
    if k = "who" then
      if w.isSome then .error "duplicate field who"
      else do bindTurtleAux rest (some (← cellU64 k v)) c x y cust
    else if k = "color" then
      if c.isSome then .error "duplicate field color"
      else do bindTurtleAux rest w (some (← cellU64 k v)) x y cust
    else if k = "xcor" then
      if x.isSome then .error "duplicate field xcor"
      else do bindTurtleAux rest w c (some (← cellI64 k v)) y cust
    else if k = "ycor" then
      if y.isSome then .error "duplicate field ycor"
      else do bindTurtleAux rest w c x (some (← cellI64 k v)) cust
    else bindTurtleAux rest w c x y ((k, coerceValue v) :: cust)

/-- Model of `record.deserialize::<Turle>(headers)`. -/
def bindTurtle (hdr row : List String) : Except String Turle :=
  match pairFields hdr row with
  | .error e => .error e
  | .ok pairs => bindTurtleAux pairs none none none none []

/-- Model of `record.deserialize::<Patch>(headers)`: no fixed fields, every column
lands in the flattened `custom` map. -/
def bindPatch (hdr row : List String) : Except String Patch :=
  match pairFields hdr row with
  | .error e => .error e
  | .ok pairs => .ok ⟨hmOfPairs (pairs.map fun p => (p.1, coerceValue p.2))⟩

/-- Model of `record.deserialize::<String>(..)` and `::<&str>(..)`: string targets take
the first field of the record, ignoring headers and any further fields; an
empty record is an `unexpected end of row` error. -/
def bindFirstCell (row : List String) : Except String String :=
  match row with
  | [] => .error "unexpected end of row"
  | c :: _ => .ok c

/-- Model of `record.deserialize::<Vec<i64>>(..)`: sequence targets read every field
of the record as an `i64`. -/
def bindRandomState (row : List String) : Except String (List Int) :=
  match row with
  | [] => .ok []
  | c :: rest =>
    match parseI64 c with
    | none => .error ("invalid i64 value: " ++ c)
    | some n =>
      match bindRandomState rest with
      | .error e => .error e
      | .ok l => .ok (n :: l)

/-- Model of `str::trim_matches('"')` as called by `parse_output`: drop every
leading and every trailing double-quote character (even unpaired ones). -/
def trimQuotes (s : String) : String :=
  String.mk (((s.data.dropWhile (· == dquote)).reverse.dropWhile (· == dquote)).reverse)

/-- Model of `str::split("\\n")`: split a character list at every (leftmost,
non-overlapping) occurrence of the two-character backslash-n sequence. -/
def splitEscNl : List Char → List (List Char)
  | [] => [[]]
  | '\\' :: 'n' :: rest => [] :: splitEscNl rest
  | c :: rest =>
    match splitEscNl rest with
    | [] => [[c]]
    | h :: t => (c :: h) :: t

/-- Function `parse_output` from `src/lib.rs`: `output.trim_matches('"')` — which
removes ALL leading and trailing double-quote characters — followed by
`split("\\n")` on the two-character backslash-n sequence. -/
def parse_output (s : String) : List String :=
  (splitEscNl (trimQuotes s).data).map String.mk

/-- The mutable state of the `parse` loop in `src/lib.rs`: the active
section, the cached header (`headers` local), and the accumulated world. -/
structure PState where
  sec : Section
  headers : Option (List String)
  world : NetLogoWorld
deriving DecidableEq, Repr

/-- The state at the top of `parse`: section `Header`, no cached header,
`NetLogoWorld::default()`. -/
def initState : PState := ⟨.header, none, defaultWorld⟩

/-- The header-or-data half of one loop iteration of `parse` (everything
after the section classification failed): capture the row as the header
when the active section expects one and none is cached, otherwise bind the
row for the active section and store the result. -/
def handleRow (st : PState) (row : List String) : Except String PState :=
  if st.sec.hasHeaders && st.headers.isNone then
    .ok { st with headers := some row }
  else
    match st.sec with
    | .randomState =>
      match bindRandomState row with
      | .error e => .error e
      | .ok v => .ok { st with world.random_state := v }
    | .globals =>
      match bindGlobals (st.headers.getD []) row with
      | .error e => .error e
      | .ok g => .ok { st with world.globals := g }
    | .turtles =>
      match bindTurtle (st.headers.getD []) row with
      | .error e => .error e
      | .ok t => .ok { st with world.turtles := st.world.turtles ++ [t] }
    | .output =>
      match bindFirstCell row with
      | .error e => .error e
      | .ok c => .ok { st with world.output := parse_output c }
    | .patches =>
      match bindPatch (st.headers.getD []) row with
      | .error e => .error e
      | .ok p => .ok { st with world.patches := st.world.patches ++ [p] }
    | .links =>
      match bindFirstCell row with
      | .error e => .error e
      | .ok c => .ok { st with world.links := st.world.links ++ [c] }
    | _ => .ok st

/-- One loop iteration of `parse`: first try to classify the row as a
section boundary (switching the active section and clearing the cached
header on success), otherwise fall through to header/data handling. -/
def processRow (st : PState) (row : List String) : Except String PState :=
  match classifySection row with
  | some s => .ok ⟨s, none, st.world⟩
  | none => handleRow st row

/-- The `parse` loop over an already-tokenized record stream: the first
failing row aborts with its error, otherwise the accumulated world is
returned when the stream is exhausted. -/
def runRows : PState → List (List String) → Except String NetLogoWorld
  | st, [] => .ok st.world
  | st, row :: rest =>
    match processRow st row with
    | .error e => .error e
    | .ok st2 => runRows st2 rest

/-- Function `parse` on a record stream, from the initial state. -/
def parseRows (rows : List (List String)) : Except String NetLogoWorld :=
  runRows initState rows

/-- Outcome of running `parse` when the underlying record iterator itself
can fail: the code's `record.expect("parse error")` turns a tokenizer
failure into a panic (process abort), which is distinct from returning the
`Err` value of the `Result`. -/
inductive RunOutcome (α : Type) where
  | ok (a : α)
  | err (e : String)
  | panic (msg : String)
deriving DecidableEq, Repr

/-- Whether a run outcome is the error value of the returned `Result`. -/
def RunOutcome.isResultErr {α : Type} : RunOutcome α → Bool
  | .err _ => true
  | _ => false

/-- The `parse` loop over the fallible record stream exactly as written in
`src/lib.rs` line 110: `rdr.records().map(|record| record.expect("parse
error"))` panics at the first tokenizer failure; successful records are
processed as usual and a processing failure returns the `Result` error. -/
def runRecords : PState → List (Except String (List String)) → RunOutcome NetLogoWorld
  | st, [] => .ok st.world
  | _, .error _ :: _ => .panic "parse error"
  | st, .ok row :: rest =>
    match processRow st row with
    | .error e => .err e
    | .ok st2 => runRecords st2 rest

/-- Tokenizer mode of the csv reader model. -/
inductive TMode where
  | startField
  | unquoted
  | quoted
  | quotedQ
deriving DecidableEq, Repr

/-- Character-level model of the csv crate reader (delimiter `,`, quote
`"`, CRLF terminators, blank lines skipped, lenient quoting: a quote inside
an unquoted field is literal, and after a closing quote the field continues
unquoted).  Arguments: remaining input, mode, current field (reversed),
fields of the current record (reversed), whether the current record has
consumed any character, and the finished records. -/
def tokenizeAux :
    List Char → TMode → List Char → List String → Bool → List (List String) →
    List (List String)
  | [], .startField, _, fields, nonEmpty, acc =>
    if nonEmpty then acc ++ [(("" :: fields).reverse)] else acc
  | [], .unquoted, field, fields, _, acc =>
    acc ++ [((String.mk field.reverse :: fields).reverse)]
  | [], .quoted, field, fields, _, acc =>
    acc ++ [((String.mk field.reverse :: fields).reverse)]
  | [], .quotedQ, field, fields, _, acc =>
    acc ++ [((String.mk field.reverse :: fields).reverse)]
  | c :: rest, .startField, _, fields, nonEmpty, acc =>
    if c == ',' then tokenizeAux rest .startField [] ("" :: fields) true acc
    else if c == '\n' || c == '\r' then
      if nonEmpty then
        tokenizeAux rest .startField [] [] false (acc ++ [(("" :: fields).reverse)])
      else tokenizeAux rest .startField [] [] false acc
    else if c == dquote then tokenizeAux rest .quoted [] fields true acc
    else tokenizeAux rest .unquoted [c] fields true acc
  | c :: rest, .unquoted, field, fields, _, acc =>
    if c == ',' then
      tokenizeAux rest .startField [] (String.mk field.reverse :: fields) true acc
    else if c == '\n' || c == '\r' then
      tokenizeAux rest .startField [] [] false
        (acc ++ [((String.mk field.reverse :: fields).reverse)])
    else tokenizeAux rest .unquoted (c :: field) fields true acc
  | c :: rest, .quoted, field, fields, _, acc =>
    if c == dquote then tokenizeAux rest .quotedQ field fields true acc
    else tokenizeAux rest .quoted (c :: field) fields true acc
  | c :: rest, .quotedQ, field, fields, _, acc =>
    if c == dquote then tokenizeAux rest .quoted (dquote :: field) fields true acc
    else if c == ',' then
      tokenizeAux rest .startField [] (String.mk field.reverse :: fields) true acc
    else if c == '\n' || c == '\r' then
      tokenizeAux rest .startField [] [] false
        (acc ++ [((String.mk field.reverse :: fields).reverse)])
    else tokenizeAux rest .unquoted (c :: field) fields true acc

/-- The csv reader model: tokenize the whole input into records. -/
def tokenize (s : String) : List (List String) :=
  tokenizeAux s.data .startField [] [] false []

/-- Function `parse_str` from `src/lib.rs`: tokenize the text with the csv reader —
whose default `has_headers = true` consumes the first record of the input
as the csv-level header, so the loop never sees it — and run the parse
loop on the remaining records. -/
def parse_str (s : String) : Except String NetLogoWorld :=
  parseRows ((tokenize s).drop 1)

/-- The names in a GLOBALS header that are not fixed fields, in column
order: the specification's notion of "the order of the corresponding
columns in the section's header row" for custom entries.  Used only to
state the order-related claim. -/
def globalsCustomCols (hdr : List String) : List String :=
  hdr.filter fun n =>
    !(n == "min-pxcor" || n == "max-pxcor" || n == "min-pycor" ||
      n == "max-pycor" || n == "ticks")

/-!  Helper lemmas shared by the proofs below. -/

/-- Dropping quote characters from both ends ignores one more quote
appended at the right end. -/
theorem dropWhile_quotes_append (l : List Char) :
    ((l ++ [dquote]).dropWhile (· == dquote)).reverse.dropWhile (· == dquote) =
      (l.dropWhile (· == dquote)).reverse.dropWhile (· == dquote) := by
  induction l with
  | nil => simp [List.dropWhile]
  | cons c t ih =>
    by_cases h : c == dquote
    · simpa [List.dropWhile, h] using ih
    · simp [List.dropWhile, h, List.reverse_append]

/-- Trimming `trim_matches('"')` is unchanged by one more leading quote. -/
theorem trimQuotes_cons_quote (s : String) :
    trimQuotes (String.mk (dquote :: s.data)) = trimQuotes s := by
  simp [trimQuotes, List.dropWhile]

/-- Trimming `trim_matches('"')` is unchanged by one more trailing quote. -/
theorem trimQuotes_append_quote (s : String) :
    trimQuotes (String.mk (s.data ++ [dquote])) = trimQuotes s := by
  simp [trimQuotes, dropWhile_quotes_append]

/-!  The claims. -/

/-- C1: value coercion of a cell string is total and deterministic, tries
bool, then unsigned 64-bit, then signed 64-bit, then double, then raw
string, taking the first interpretation that fully consumes the string;
"42" is `U64 42`, "-1" is `I64 (-1)`, "3.14" is the double written
`314e-2`, "true" is `Bool true`, "abc" is `String "abc"`. -/
theorem value_coercion_total_priority (s : String) :
    coerceValue "42" = Value.u64 42
  ∧ coerceValue "-1" = Value.i64 (-1)
  ∧ coerceValue "3.14" = Value.float (.finite 314 (-2))
  ∧ coerceValue "true" = Value.bool true
  ∧ coerceValue "abc" = Value.string "abc"
  ∧ coerceValue s = coerceValue s
  ∧ (s = "true" → coerceValue s = Value.bool true)
  ∧ (s = "false" → coerceValue s = Value.bool false)
  ∧ (∀ n, s ≠ "true" → s ≠ "false" → parseU64 s = some n →
      coerceValue s = Value.u64 n)
  ∧ (∀ n, s ≠ "true" → s ≠ "false" → parseU64 s = none → parseI64 s = some n →
      coerceValue s = Value.i64 n)
  ∧ (∀ f, s ≠ "true" → s ≠ "false" → parseU64 s = none → parseI64 s = none →
      parseF64 s = some f → coerceValue s = Value.float f)
  ∧ (s ≠ "true" → s ≠ "false" → parseU64 s = none → parseI64 s = none →
      parseF64 s = none → coerceValue s = Value.string s) := by
  refine ⟨by decide, by decide, by decide, by decide, by decide, rfl,
    ?_, ?_, ?_, ?_, ?_, ?_⟩
  · intro h; simp [coerceValue, h]
  · intro h
    have h2 : ¬ (s = "true") := by intro hc; rw [hc] at h; exact absurd h (by decide)
    simp [coerceValue, h, h2]
  · intro n h1 h2 h3; simp [coerceValue, h1, h2, h3]
  · intro n h1 h2 h3 h4; simp [coerceValue, h1, h2, h3, h4]
  · intro f h1 h2 h3 h4 h5; simp [coerceValue, h1, h2, h3, h4, h5]
  · intro h1 h2 h3 h4 h5; simp [coerceValue, h1, h2, h3, h4, h5]

/-- Witness for C1: the signed-integer clause applied at "-1". -/
theorem value_coercion_total_priority_witness :
    coerceValue "-1" = Value.i64 (-1) := by
  have h := value_coercion_total_priority "-1"
  exact h.2.2.2.2.2.2.2.2.2.1 (-1) (by decide) (by decide) (by decide) (by decide)

/-- C2 (amended): a data row processed while the Output section is active
REPLACES the snapshot's output with the pieces of that row (in order); it
does not append, so after several Output rows only the last row's pieces
remain. -/
theorem output_row_replaces (st : PState) (c : String) (cs : List String)
    (h1 : st.sec = Section.output) (h2 : sectionOfToken c = none) :
    processRow st (c :: cs) =
      Except.ok { st with world.output := parse_output c } := by
  obtain ⟨sec, hdrs, w⟩ := st
  simp only at h1
  subst h1
  simp [processRow, classifySection, h2, handleRow, Section.hasHeaders, bindFirstCell]

/-- Witness for C2's amended theorem at a concrete Output row. -/
theorem output_row_replaces_witness :
    processRow ⟨Section.output, none, defaultWorld⟩ ["hi"] =
      Except.ok ⟨Section.output, none, ⟨[], defaultGlobals, ["hi"], [], [], [], ()⟩⟩ := by
  have h := output_row_replaces ⟨Section.output, none, defaultWorld⟩ "hi" [] rfl (by decide)
  exact h

/-- C2 counterexample: with two Output data rows "a" then "b", the final
snapshot's output is only ["b"]; the earlier row's piece "a" is gone,
refuting grow-by-append. -/
theorem output_append_cex :
    parseRows [["OUTPUT"], ["a"], ["b"]] =
      Except.ok ⟨[], defaultGlobals, ["b"], [], [], [], ()⟩
  ∧ "a" ∉ (["b"] : List String) := ⟨rfl, by decide⟩

/-- C3 (amended): the Output cell is stripped of ALL leading and ALL
trailing double-quote characters — `trim_matches('"')` — even unpaired
ones, not of exactly one surrounding pair; the remainder is split on every
occurrence of the two-character backslash-n sequence. -/
theorem parse_output_trims_all_quotes (s : String) :
    parse_output (String.mk (dquote :: s.data)) = parse_output s
  ∧ parse_output (String.mk (s.data ++ [dquote])) = parse_output s
  ∧ parse_output "\"a\\nb\\nc\"" = ["a", "b", "c"] :=
  ⟨by simp [parse_output, trimQuotes_cons_quote],
   by simp [parse_output, trimQuotes_append_quote],
   rfl⟩

/-- C3 counterexample: a cell wrapped in two quote pairs loses ALL of them
(the claim says all but one would be kept), and a single unpaired leading
quote is also removed (the claim says it would be kept). -/
theorem parse_output_single_pair_cex :
    parse_output "\"\"x\"\"" = ["x"]
  ∧ parse_output "\"\"x\"\"" ≠ ["\"x\""]
  ∧ parse_output "\"x" = ["x"]
  ∧ parse_output "\"x" ≠ ["\"x"] :=
  ⟨rfl, by decide, rfl, by decide⟩

/-- C4 (amended): parsing the same input twice yields structurally equal
snapshots, but custom fields live in an unordered hash map whose structural
equality is independent of column order, so no relative order of custom
entries is maintained: two GLOBALS sections whose custom columns appear in
opposite orders bind to identical records. -/
theorem parse_deterministic_unordered_custom :
    (∀ s : String, parse_str s = parse_str s)
  ∧ bindGlobals ["min-pxcor", "max-pxcor", "min-pycor", "max-pycor", "ticks", "a", "b"]
      ["0", "1", "2", "3", "4", "5", "6"]
    = bindGlobals ["min-pxcor", "max-pxcor", "min-pycor", "max-pycor", "ticks", "b", "a"]
      ["0", "1", "2", "3", "4", "6", "5"]
  ∧ globalsCustomCols ["min-pxcor", "max-pxcor", "min-pycor", "max-pycor", "ticks", "a", "b"]
    ≠ globalsCustomCols ["min-pxcor", "max-pxcor", "min-pycor", "max-pycor", "ticks", "b", "a"] := by
  have e1 : bindGlobals ["min-pxcor", "max-pxcor", "min-pycor", "max-pycor", "ticks", "a", "b"]
      ["0", "1", "2", "3", "4", "5", "6"] =
      Except.ok ⟨0, 1, 2, 3, 4, [("a", .u64 5), ("b", .u64 6)]⟩ := rfl
  have e2 : bindGlobals ["min-pxcor", "max-pxcor", "min-pycor", "max-pycor", "ticks", "b", "a"]
      ["0", "1", "2", "3", "4", "6", "5"] =
      Except.ok ⟨0, 1, 2, 3, 4, [("a", .u64 5), ("b", .u64 6)]⟩ := rfl
  exact ⟨fun _ => rfl, e1.trans e2.symm, by decide⟩

/-- C4 counterexample: no function can read the header column order off a
stored custom map — two headers with the custom columns in opposite orders
produce the SAME custom map, so the stored order cannot equal both header
orders; the claim's "order of custom entries equals header column order"
is refuted. -/
theorem custom_order_not_recoverable_cex :
    ¬ ∃ ord : CustomMap → List String,
      ∀ hdr row g, bindGlobals hdr row = Except.ok g →
        ord g.custom = globalsCustomCols hdr := by
  rintro ⟨ord, h⟩
  have h1 := h ["min-pxcor", "max-pxcor", "min-pycor", "max-pycor", "ticks", "a", "b"]
    ["0", "1", "2", "3", "4", "5", "6"]
    ⟨0, 1, 2, 3, 4, [("a", .u64 5), ("b", .u64 6)]⟩ rfl
  have h2 := h ["min-pxcor", "max-pxcor", "min-pycor", "max-pycor", "ticks", "b", "a"]
    ["0", "1", "2", "3", "4", "6", "5"]
    ⟨0, 1, 2, 3, 4, [("a", .u64 5), ("b", .u64 6)]⟩ rfl
  rw [h1] at h2
  exact absurd h2 (by decide)

/-- C5: the parser stores a Links data row as the raw string of the row's
FIRST cell only (`NetLogoWorld.links` is `Vec<String>`); the declared
`Link` record with its column map is never built.  Evaluating the parse at
the failing input: header `end1,end2`, data row `0,1` stores just "0". -/
theorem links_row_stored_as_first_cell_string :
    parseRows [["LINKS"], ["end1", "end2"], ["0", "1"]] =
      Except.ok ⟨[], defaultGlobals, [], [], [], ["0"], ()⟩ := rfl

/-- C6 (amended): a record-stream failure makes `parse` PANIC (the
`record.expect("parse error")` on line 110) instead of returning the error
value of the `Result`; no snapshot is returned. -/
theorem tokenizer_failure_panics (st : PState) (e : String)
    (rest : List (Except String (List String))) :
    runRecords st (Except.error e :: rest) = RunOutcome.panic "parse error" := rfl

/-- C6 counterexample: on a stream whose first record is a tokenizer
failure, the outcome is a panic, not the error value of the returned
`Result`. -/
theorem tokenizer_failure_panics_cex :
    runRecords initState [Except.error "malformed quoting"] =
      RunOutcome.panic "parse error"
  ∧ (runRecords initState [Except.error "malformed quoting"]).isResultErr = false :=
  ⟨rfl, rfl⟩

/-- C7 (amended): while GLOBALS is active with a captured header, a data
row with FEWER cells than the header aborts the parse with an error (and
any failing field binding aborts with its error); no snapshot and no
partial record survive.  (A row with MORE cells than the header is NOT an
error — see the counterexample.) -/
theorem globals_schema_mismatch_aborts (st : PState) (h : List String)
    (row : List String) (rest : List (List String))
    (h1 : st.sec = Section.globals) (h2 : st.headers = some h)
    (h3 : classifySection row = none) :
    (row.length < h.length →
      runRows st (row :: rest) = Except.error "unexpected end of row")
  ∧ (∀ e, bindGlobals h row = Except.error e →
      runRows st (row :: rest) = Except.error e) := by
  obtain ⟨sec, hdrs, w⟩ := st
  simp only at h1 h2
  subst h1
  subst h2
  constructor
  · intro hlen
    simp [runRows, processRow, h3, handleRow, Section.hasHeaders, bindGlobals,
      pairFields, hlen]
  · intro e he
    simp [runRows, processRow, h3, handleRow, Section.hasHeaders, he]

/-- Witness for C7's amended theorem: a one-cell GLOBALS data row against a
two-name header aborts with the pairing error. -/
theorem globals_schema_mismatch_aborts_witness :
    runRows ⟨Section.globals, some ["min-pxcor", "max-pxcor"], defaultWorld⟩ [["1"]] =
      Except.error "unexpected end of row" := by
  have h := globals_schema_mismatch_aborts
    ⟨Section.globals, some ["min-pxcor", "max-pxcor"], defaultWorld⟩
    ["min-pxcor", "max-pxcor"] ["1"] [] rfl rfl (by decide)
  exact h.1 (by decide)

/-- C7 counterexample: a GLOBALS data row with MORE cells than its captured
header (6 against 5) parses successfully — the extra cell is ignored — so
"cell count differs from the header's length" does not always produce an
error. -/
theorem globals_extra_cells_ok_cex :
    parse_str "HEADER\nGLOBALS\nmin-pxcor,max-pxcor,min-pycor,max-pycor,ticks\n0,0,0,0,0,9\n"
      = Except.ok defaultWorld
  ∧ (["0", "0", "0", "0", "0", "9"] : List String).length ≠
      (["min-pxcor", "max-pxcor", "min-pycor", "max-pycor", "ticks"] : List String).length :=
  ⟨rfl, by decide⟩

/-- C8: every recognized section-boundary row switches the section and
clears the cached header unconditionally (also when re-entering the same
section), and the TURTLES/PATCHES row sequence with different widths across
sections parses without error. -/
theorem section_row_clears_header :
    (∀ st row s2, classifySection row = some s2 →
      processRow st row = Except.ok ⟨s2, none, st.world⟩)
  ∧ parseRows [["TURTLES"], ["who", "color", "xcor", "ycor"], ["0", "5", "1", "2"],
      ["PATCHES"], ["a", "b"], ["1", "2"], ["3", "4"]] =
      Except.ok ⟨[], defaultGlobals, [], [⟨0, 5, 1, 2, []⟩],
        [⟨[("a", .u64 1), ("b", .u64 2)]⟩, ⟨[("a", .u64 3), ("b", .u64 4)]⟩], [], ()⟩ := by
  constructor
  · intro st row s2 hcl
    simp [processRow, hcl]
  · rfl

/-- Witness for C8: a TURTLES boundary seen while TURTLES is already active
with a cached header still clears the header. -/
theorem section_row_clears_header_witness :
    processRow ⟨Section.turtles, some ["who"], defaultWorld⟩ ["TURTLES"] =
      Except.ok ⟨Section.turtles, none, defaultWorld⟩ :=
  section_row_clears_header.1 ⟨Section.turtles, some ["who"], defaultWorld⟩ ["TURTLES"]
    Section.turtles rfl

/-- C9 (amended): a row whose FIRST cell equals one of the nine
case-sensitive wire tokens (`EXTENSTIONS` spelling included) switches the
active section — any additional cells are ignored, so the row need not be
single-cell — and a row whose first cell matches no token falls through to
header/data handling without error at this stage. -/
theorem section_tokens_first_cell (st : PState) (c : String)
    (cs row : List String) :
    sectionOfToken "HEADER" = some Section.header
  ∧ sectionOfToken "RANDOM_STATE" = some Section.randomState
  ∧ sectionOfToken "GLOBALS" = some Section.globals
  ∧ sectionOfToken "TURTLES" = some Section.turtles
  ∧ sectionOfToken "PATCHES" = some Section.patches
  ∧ sectionOfToken "LINKS" = some Section.links
  ∧ sectionOfToken "OUTPUT" = some Section.output
  ∧ sectionOfToken "PLOTS" = some Section.plots
  ∧ sectionOfToken "EXTENSTIONS" = some Section.extenstions
  ∧ sectionOfToken "EXTENSIONS" = none
  ∧ sectionOfToken "Turtles" = none
  ∧ classifySection (c :: cs) = sectionOfToken c
  ∧ classifySection [] = none
  ∧ (classifySection row = none → processRow st row = handleRow st row) := by
  refine ⟨rfl, rfl, rfl, rfl, rfl, rfl, rfl, rfl, rfl, rfl, rfl, rfl, rfl, ?_⟩
  intro h
  simp [processRow, h]

/-- Witness for C9's amended theorem: a non-token row falls through. -/
theorem section_tokens_first_cell_witness :
    processRow initState ["abc"] = handleRow initState ["abc"] := by
  have h := section_tokens_first_cell initState "abc" [] ["abc"]
  exact h.2.2.2.2.2.2.2.2.2.2.2.2.2 (by decide)

/-- C9 counterexample: the two-cell row `TURTLES,foo` is NOT a single-cell
row, yet it is classified as a boundary and switches the active section
instead of falling through to header/data handling. -/
theorem section_token_multi_cell_cex :
    classifySection ["TURTLES", "foo"] = some Section.turtles
  ∧ processRow ⟨Section.globals, some ["g"], defaultWorld⟩ ["TURTLES", "foo"] =
      Except.ok ⟨Section.turtles, none, defaultWorld⟩ := ⟨rfl, rfl⟩

/-- C10: parsing the empty string succeeds with the default snapshot: empty
random state, all-zero globals with empty custom map, empty output,
turtles, patches and links, and the unit plots placeholder. -/
theorem parse_empty_default :
    parse_str "" = Except.ok ⟨[], ⟨0, 0, 0, 0, 0, []⟩, [], [], [], [], ()⟩ := rfl
